import Mathlib

/-!
Shallow embedding of `pack_to_single_html.py` (white-sea-trip repository).

The script inlines local image references of an HTML document into
`data:` URIs.  We embed:

* the string prefix test used by the Python `str.startswith` calls;
* posix `os.path.join` / `os.path.normpath` on `/`-separated paths;
* MIME guessing from the file extension (Python `mimetypes.guess_type`
  restricted to the raster/vector formats the script's docstring lists,
  with the `application/octet-stream` fallback of `to_data_uri`);
* standard base64 encoding of a byte list, plus a decoder used to state
  the round-trip property;
* `to_data_uri` and the per-`img` body of `main`'s loop (lines 47-75),
  with the filesystem modelled as a lookup structure: `pathExists`
  embeds `os.path.exists`, and `readBytes` returning `none` models an
  exception raised by `open`/`read` (the `except` branches);
* the argument/existence checks and overall result of `main` as `run`.

Warnings are collected as a list of strings (Python prints them to
standard output); the quote characters of the original f-strings are
omitted from the warning text, the named paths are kept verbatim.
-/

/-- Character-list prefix test. -/
def prefChars : List Char → List Char → Bool
  | [], _ => true
  | _ :: _, [] => false
  | a :: ps, b :: ss => if a = b then prefChars ps ss else false

/-- `strStarts p s` embeds the Python expression `s.startswith(p)`:
an exact, case-sensitive character-prefix check. -/
def strStarts (p s : String) : Bool := prefChars p.data s.data

/-- Split a character list on a separator character (used for the `/` and
`.` splits of path normalisation and extension extraction). -/
def splitOnChar (sep : Char) : List Char → List Char → List (List Char)
  | acc, [] => [acc.reverse]
  | acc, c :: rest =>
    if c = sep then acc.reverse :: splitOnChar sep [] rest
    else splitOnChar sep (c :: acc) rest

/-- Segment pass of posix `os.path.normpath`: drop empty and `.` segments,
resolve `..` against the accumulated stack (keeping leading `..` segments
of a relative path, dropping `..` at the root of an absolute path). -/
def normSegs (absolute : Bool) : List (List Char) → List (List Char) → List (List Char)
  | acc, [] => acc.reverse
  | acc, s :: rest =>
    if s = [] ∨ s = ['.'] then normSegs absolute acc rest
    else if s = ['.', '.'] then
      match acc with
      | [] =>
        if absolute then normSegs absolute [] rest
        else normSegs absolute [['.', '.']] rest
      | t :: acc2 =>
        if t = ['.', '.'] then normSegs absolute (s :: acc) rest
        else normSegs absolute acc2 rest
    else normSegs absolute (s :: acc) rest

/-- Re-join path segments with `/`. -/
def joinSegs : List (List Char) → List Char
  | [] => []
  | [s] => s
  | s :: s2 :: rest => s ++ '/' :: joinSegs (s2 :: rest)

/-- Embeds posix `os.path.normpath`: collapses `//` and `.` segments and
resolves `..`; an empty result becomes `.`; a leading `//` (exactly two
slashes) is preserved, any other run of leading slashes becomes `/`. -/
def normpath (p : String) : String :=
  if p = "" then "."
  else
    let absolute := strStarts "/" p
    let pfx : List Char :=
      if strStarts "//" p && !(strStarts "///" p) then ['/', '/']
      else if absolute then ['/'] else []
    let body := joinSegs (normSegs absolute [] (splitOnChar '/' [] p.data))
    if body = [] then (if pfx = [] then "." else String.mk pfx)
    else String.mk (pfx ++ body)

/-- Embeds posix `os.path.join(a, b)` for the two-argument uses of the
script: an absolute `b` replaces `a`; otherwise the parts are joined with
a single `/` unless `a` already ends with one. -/
def pathJoin (a b : String) : String :=
  if strStarts "/" b then b
  else if a = "" then b
  else if a.data.getLastD ' ' = '/' then a ++ b
  else a ++ "/" ++ b

/-- The resolved path of line 55/70: `os.path.normpath(os.path.join(base_dir, ref))`. -/
def localPathOf (baseDir ref : String) : String := normpath (pathJoin baseDir ref)

/-- Lower-cased file extension (with its dot) of the last path component,
following posix `os.path.splitext`: no extension when the component has at
most one `.`-part or when everything before the last dot is dots. -/
def extOf (p : String) : String :=
  let base := (splitOnChar '/' [] p.data).getLastD []
  let parts := splitOnChar '.' [] base
  if parts.length ≤ 1 then ""
  else if parts.dropLast.all (fun s => s = []) then ""
  else String.mk ('.' :: (parts.getLastD []).map Char.toLower)

/-- Embeds `mimetypes.guess_type` for the formats the script supports
(jpg/jpeg/png/webp/gif/svg, per its docstring); other extensions give
`none`, which `to_data_uri` replaces by the fallback type. -/
def guessMime (p : String) : Option String :=
  match extOf p with
  | ".jpg" => some "image/jpeg"
  | ".jpeg" => some "image/jpeg"
  | ".png" => some "image/png"
  | ".webp" => some "image/webp"
  | ".gif" => some "image/gif"
  | ".svg" => some "image/svg+xml"
  | _ => none

/-- The 64-character base64 alphabet. -/
def b64Table : List Char :=
  "ABCDEFGHIJKLMNOPQRSTUVWXYZabcdefghijklmnopqrstuvwxyz0123456789+/".data

/-- Character for a 6-bit group. -/
def b64Char (n : Nat) : Char := b64Table.getD n '='

/-- Index of a base64 character in the alphabet. -/
def b64Val (c : Char) : Nat := b64Table.indexOf c

/-- Standard base64 encoding of a byte list (Python `base64.b64encode`),
three bytes to four characters with `=` padding. -/
def b64encodeList : List Nat → List Char
  | [] => []
  | [a] => [b64Char (a / 4), b64Char (a % 4 * 16), '=', '=']
  | [a, b] =>
    [b64Char (a / 4), b64Char (a % 4 * 16 + b / 16), b64Char (b % 16 * 4), '=']
  | a :: b :: c :: rest =>
    b64Char (a / 4) :: b64Char (a % 4 * 16 + b / 16) ::
      b64Char (b % 16 * 4 + c / 64) :: b64Char (c % 64) :: b64encodeList rest

/-- Base64 decoding of a padded character list, the inverse used to state
the encode-decode round trip. -/
def b64decodeList : List Char → List Nat
  | c1 :: c2 :: c3 :: c4 :: rest =>
    if c3 = '=' then [b64Val c1 * 4 + b64Val c2 / 16]
    else if c4 = '=' then
      [b64Val c1 * 4 + b64Val c2 / 16, b64Val c2 % 16 * 16 + b64Val c3 / 4]
    else
      (b64Val c1 * 4 + b64Val c2 / 16) ::
        (b64Val c2 % 16 * 16 + b64Val c3 / 4) ::
          (b64Val c3 % 4 * 64 + b64Val c4) :: b64decodeList rest
  | _ => []

/-- The filesystem seen by one run: `pathExists` embeds `os.path.exists`;
`readBytes` embeds opening a file and reading its raw bytes, with `none`
modelling an exception raised during the read (caught by the script's
`except` clauses). -/
structure FS where
  pathExists : String → Bool
  readBytes : String → Option (List Nat)

/-- The data URI built by `to_data_uri` for a path and its byte content:
MIME guessed from the file name, falling back to `application/octet-stream`,
and the base64 payload of the raw bytes (lines 15-23). -/
def dataUriOf (path : String) (b : List Nat) : String :=
  "data:" ++ (guessMime path).getD "application/octet-stream" ++ ";base64," ++
    String.mk (b64encodeList b)

/-- `to_data_uri` over the modelled filesystem: `none` when the read
raises. -/
def toDataUri (fs : FS) (path : String) : Option String :=
  (fs.readBytes path).map (dataUriOf path)

/-- An `img` element, reduced to the two attributes the script touches.
`none` models an absent attribute. -/
structure Img where
  src : Option String
  dataFull : Option String
deriving DecidableEq, Repr

/-- Warning of line 57 (quote characters of the f-string omitted). -/
def warnNotFound (src localPath : String) : String :=
  "[warn] file not found for <img src=" ++ src ++ "> -> " ++ localPath

/-- Warning of line 64 (exception text omitted). -/
def warnInlineFail (localPath : String) : String :=
  "[warn] failed to inline " ++ localPath

/-- Warning of line 75 (exception text omitted). -/
def warnDataFullFail (fullPath : String) : String :=
  "[warn] failed to inline data-full " ++ fullPath

/-- Lines 67-75: the `data-full` sub-step.  Returns the updated element and
the warnings it printed; it touches no counter. -/
def dataFullStep (fs : FS) (baseDir : String) (img : Img) : Img × List String :=
  match img.dataFull with
  | none => (img, [])
  | some df =>
    if df = "" then (img, [])
    else if strStarts "http://" df || strStarts "https://" df || strStarts "data:" df then
      (img, [])
    else
      let fullPath := localPathOf baseDir df
      if fs.pathExists fullPath then
        match toDataUri fs fullPath with
        | some uri => ({ img with dataFull := some uri }, [])
        | none => (img, [warnDataFullFail fullPath])
      else (img, [])

/-- Lines 47-75: one iteration of the loop over `img` elements.  Returns
the updated element, its contribution to `changed`, its contribution to
`skipped`, and the warnings printed for it.  The `continue` statements of
the source are the early returns; note that they bypass the `data-full`
sub-step, which only runs after the `try`/`except` of lines 60-65. -/
def processImg (fs : FS) (baseDir : String) (img : Img) : Img × Nat × Nat × List String :=
  let src := img.src.getD ""
  if src = "" then (img, 0, 0, [])
  else if strStarts "data:" src then (img, 0, 0, [])
  else if strStarts "http://" src || strStarts "https://" src then (img, 0, 1, [])
  else
    let localPath := localPathOf baseDir src
    if !(fs.pathExists localPath) then (img, 0, 1, [warnNotFound src localPath])
    else
      match toDataUri fs localPath with
      | some uri =>
        let r := dataFullStep fs baseDir { img with src := some uri }
        (r.1, 1, 0, r.2)
      | none =>
        let r := dataFullStep fs baseDir img
        (r.1, 0, 1, warnInlineFail localPath :: r.2)

/-- The whole loop of lines 47-75 over the document's `img` elements in
order, accumulating the counters and warnings. -/
def processAll (fs : FS) (baseDir : String) : List Img → List Img × Nat × Nat × List String
  | [] => ([], 0, 0, [])
  | img :: rest =>
    let r := processImg fs baseDir img
    let rs := processAll fs baseDir rest
    (r.1 :: rs.1, r.2.1 + rs.2.1, r.2.2.1 + rs.2.2.1, r.2.2.2 ++ rs.2.2.2)

/-- Observable outcome of one invocation: the exit code, the lines printed
to standard output, and the written output file (path and rendered
document), `none` when nothing is written. -/
structure RunOutcome where
  exitCode : Nat
  stdout : List String
  written : Option (String × List Img)
deriving DecidableEq

/-- The usage line of line 27. -/
def usageMsg : String :=
  "Usage: python pack_to_single_html.py input.html output.single.html"

/-- `main` (lines 25-84).  HTML parsing (BeautifulSoup), the text read of
line 37 and `os.path.dirname(os.path.abspath(...))` of line 41 are
environment functions passed in: `parse` maps the input path to its
document (the list of `img` elements) and `absDirOf` to its base
directory.  The written document is the mutated element list. -/
def run (fs : FS) (parse : String → List Img) (absDirOf : String → String)
    (argv : List String) : RunOutcome :=
  if argv.length < 3 then { exitCode := 1, stdout := [usageMsg], written := none }
  else
    let inPath := argv.getD 1 ""
    let outPath := argv.getD 2 ""
    if !(fs.pathExists inPath) then
      { exitCode := 2, stdout := ["Error: input not found: " ++ inPath], written := none }
    else
      let rs := processAll fs (absDirOf inPath) (parse inPath)
      { exitCode := 0
        stdout := rs.2.2.2 ++
          ["Done. Inlined images: " ++ toString rs.2.1 ++ ", skipped: " ++ toString rs.2.2.1,
           "Written: " ++ outPath]
        written := some (outPath, rs.1) }

/-- Example filesystem: one image file `/site/pic.png` with bytes 1, 2, 3. -/
def fsSite : FS where
  pathExists p := p == "/site/pic.png"
  readBytes p := if p == "/site/pic.png" then some [1, 2, 3] else none

/-- Example filesystem with no files. -/
def fsNone : FS where
  pathExists _ := false
  readBytes _ := none

/-- Example filesystem where `/site/pic.png` passes the existence check but
every read raises (a file that disappears or is unreadable). -/
def fsBroken : FS where
  pathExists p := p == "/site/pic.png"
  readBytes _ := none

/-- Example filesystem holding a local image `/site/a.png` and files at
paths that look like remote URLs once resolved against `/site`. -/
def fsOdd : FS where
  pathExists p := p == "/site/HTTP:/host/x" || p == "//host/x" || p == "/site/a.png"
  readBytes p :=
    if p == "/site/HTTP:/host/x" then some [7]
    else if p == "//host/x" then some [9]
    else if p == "/site/a.png" then some [1]
    else none

/-! ### Helper lemmas -/

theorem prefChars_append_self (l m : List Char) : prefChars l (l ++ m) = true := by
  induction l with
  | nil => rfl
  | cons a ps ih => simp [prefChars, ih]

theorem strStarts_append_self (p t : String) : strStarts p (p ++ t) = true := by
  unfold strStarts
  rw [String.data_append]
  exact prefChars_append_self _ _

theorem prefChars_head {a : Char} {ps l : List Char}
    (h : prefChars (a :: ps) l = true) : ∃ tl, l = a :: tl ∧ prefChars ps tl = true := by
  cases l with
  | nil => simp [prefChars] at h
  | cons b tl =>
    unfold prefChars at h
    split at h
    · exact ⟨tl, by simp_all⟩
    · simp at h

theorem strAppend_assoc (a b c : String) : a ++ b ++ c = a ++ (b ++ c) := by
  apply String.ext
  simp [String.data_append]

theorem remote_src_shape {s : String}
    (h : strStarts "http://" s = true ∨ strStarts "https://" s = true) :
    s ≠ "" ∧ strStarts "data:" s = false := by
  have hh : ∃ tl, s.data = 'h' :: tl := by
    rcases h with h | h <;>
      · obtain ⟨tl, htl, -⟩ := prefChars_head h
        exact ⟨tl, htl⟩
  obtain ⟨tl, htl⟩ := hh
  constructor
  · intro he
    rw [he] at htl
    simp at htl
  · unfold strStarts
    rw [htl]
    simp [prefChars]

theorem b64Val_b64Char : ∀ x < 64, b64Val (b64Char x) = x := by decide

theorem b64Char_ne_pad : ∀ x < 64, b64Char x ≠ '=' := by decide

theorem b64_roundtrip (l : List Nat) (h : ∀ b ∈ l, b < 256) :
    b64decodeList (b64encodeList l) = l := by
  match l with
  | [] => rfl
  | [a] =>
    have ha : a < 256 := h a (by simp)
    have h1 : a / 4 < 64 := by omega
    have h2 : a % 4 * 16 < 64 := by omega
    simp only [b64encodeList, b64decodeList,
      b64Val_b64Char _ h1, b64Val_b64Char _ h2]
    simp
    all_goals omega
  | [a, b] =>
    have ha : a < 256 := h a (by simp)
    have hb : b < 256 := h b (by simp)
    have h1 : a / 4 < 64 := by omega
    have h2 : a % 4 * 16 + b / 16 < 64 := by omega
    have h3 : b % 16 * 4 < 64 := by omega
    simp only [b64encodeList, b64decodeList, if_neg (b64Char_ne_pad _ h3),
      b64Val_b64Char _ h1, b64Val_b64Char _ h2, b64Val_b64Char _ h3]
    simp
    all_goals omega
  | a :: b :: c :: rest =>
    have ha : a < 256 := h a (by simp)
    have hb : b < 256 := h b (by simp)
    have hc : c < 256 := h c (by simp)
    have h1 : a / 4 < 64 := by omega
    have h2 : a % 4 * 16 + b / 16 < 64 := by omega
    have h3 : b % 16 * 4 + c / 64 < 64 := by omega
    have h4 : c % 64 < 64 := by omega
    have ih := b64_roundtrip rest (fun x hx => h x (by simp [hx]))
    simp only [b64encodeList, b64decodeList, if_neg (b64Char_ne_pad _ h3),
      if_neg (b64Char_ne_pad _ h4),
      b64Val_b64Char _ h1, b64Val_b64Char _ h2, b64Val_b64Char _ h3, b64Val_b64Char _ h4, ih]
    simp
    all_goals omega

theorem dataFullStep_src (fs : FS) (bd : String) (img : Img) :
    (dataFullStep fs bd img).1.src = img.src := by
  unfold dataFullStep
  cases img.dataFull with
  | none => rfl
  | some df =>
    dsimp only
    split_ifs <;> try rfl
    split <;> rfl

theorem dataFullStep_set_src (fs : FS) (bd : String) (img : Img) (s : Option String) :
    dataFullStep fs bd { img with src := s } =
      ({ (dataFullStep fs bd img).1 with src := s }, (dataFullStep fs bd img).2) := by
  cases img with
  | mk s0 d =>
    unfold dataFullStep
    cases d with
    | none => rfl
    | some df =>
      dsimp only
      split_ifs <;> try rfl
      split <;> rfl

theorem processImg_skip (fs : FS) (bd : String) (img : Img)
    (h : img.src.getD "" = "" ∨ strStarts "data:" (img.src.getD "") = true) :
    processImg fs bd img = (img, 0, 0, []) := by
  unfold processImg
  rcases h with h | h
  · simp [h]
  · by_cases he : img.src.getD "" = ""
    · simp [he]
    · simp [he, h]

theorem processImg_remote (fs : FS) (bd : String) (img : Img)
    (h : strStarts "http://" (img.src.getD "") = true ∨
      strStarts "https://" (img.src.getD "") = true) :
    processImg fs bd img = (img, 0, 1, []) := by
  obtain ⟨hne, hdata⟩ := remote_src_shape h
  unfold processImg
  rcases h with h | h <;> simp [hne, hdata, h]

theorem processImg_missing (fs : FS) (bd : String) (img : Img) (src : String)
    (hsrc : img.src = some src) (hne : src ≠ "")
    (hd : strStarts "data:" src = false)
    (h1 : strStarts "http://" src = false) (h2 : strStarts "https://" src = false)
    (hex : fs.pathExists (localPathOf bd src) = false) :
    processImg fs bd img = (img, 0, 1, [warnNotFound src (localPathOf bd src)]) := by
  unfold processImg
  simp [hsrc, hne, hd, h1, h2, hex]

theorem processImg_success (fs : FS) (bd : String) (img : Img) (src : String)
    (bytes : List Nat)
    (hsrc : img.src = some src) (hne : src ≠ "")
    (hd : strStarts "data:" src = false)
    (h1 : strStarts "http://" src = false) (h2 : strStarts "https://" src = false)
    (hex : fs.pathExists (localPathOf bd src) = true)
    (hread : fs.readBytes (localPathOf bd src) = some bytes) :
    processImg fs bd img =
      ((dataFullStep fs bd { img with src := some (dataUriOf (localPathOf bd src) bytes) }).1,
        1, 0,
        (dataFullStep fs bd { img with src := some (dataUriOf (localPathOf bd src) bytes) }).2) := by
  unfold processImg
  simp [hsrc, hne, hd, h1, h2, hex, toDataUri, hread]

theorem processImg_readfail (fs : FS) (bd : String) (img : Img) (src : String)
    (hsrc : img.src = some src) (hne : src ≠ "")
    (hd : strStarts "data:" src = false)
    (h1 : strStarts "http://" src = false) (h2 : strStarts "https://" src = false)
    (hex : fs.pathExists (localPathOf bd src) = true)
    (hread : fs.readBytes (localPathOf bd src) = none) :
    processImg fs bd img =
      ((dataFullStep fs bd img).1, 0, 1,
        warnInlineFail (localPathOf bd src) :: (dataFullStep fs bd img).2) := by
  unfold processImg
  simp [hsrc, hne, hd, h1, h2, hex, toDataUri, hread]

theorem dataUriOf_shape (p : String) (b : List Nat) :
    dataUriOf p b =
      "data:" ++ ((guessMime p).getD "application/octet-stream" ++
        (";base64," ++ String.mk (b64encodeList b))) := by
  unfold dataUriOf
  rw [strAppend_assoc, strAppend_assoc]

theorem processImg_counter_cases (fs : FS) (bd : String) (img : Img) :
    ((processImg fs bd img).2.1, (processImg fs bd img).2.2.1) = (0, 0) ∨
      ((processImg fs bd img).2.1, (processImg fs bd img).2.2.1) = (1, 0) ∨
      ((processImg fs bd img).2.1, (processImg fs bd img).2.2.1) = (0, 1) := by
  unfold processImg
  dsimp only
  split_ifs <;> try simp
  split <;> simp

theorem processImg_changed_src (fs : FS) (bd : String) (img : Img)
    (h : (processImg fs bd img).2.1 = 1) :
    ∃ t, (processImg fs bd img).1.src = some ("data:" ++ t) := by
  rcases hs : img.src with _ | src
  · rw [processImg_skip fs bd img (Or.inl (by simp [hs]))] at h
    simp at h
  · by_cases hne : src = ""
    · rw [processImg_skip fs bd img (Or.inl (by simp [hs, hne]))] at h
      simp at h
    · by_cases hdata : strStarts "data:" src = true
      · rw [processImg_skip fs bd img (Or.inr (by simpa [hs] using hdata))] at h
        simp at h
      · by_cases hhttp : strStarts "http://" src = true
        · rw [processImg_remote fs bd img (Or.inl (by simpa [hs] using hhttp))] at h
          simp at h
        · by_cases hhttps : strStarts "https://" src = true
          · rw [processImg_remote fs bd img (Or.inr (by simpa [hs] using hhttps))] at h
            simp at h
          · have hdata2 : strStarts "data:" src = false := by simpa using hdata
            have hhttp2 : strStarts "http://" src = false := by simpa using hhttp
            have hhttps2 : strStarts "https://" src = false := by simpa using hhttps
            by_cases hex : fs.pathExists (localPathOf bd src) = true
            · rcases hread : fs.readBytes (localPathOf bd src) with _ | bytes
              · rw [processImg_readfail fs bd img src hs hne hdata2 hhttp2 hhttps2
                  hex hread] at h
                simp at h
              · refine ⟨(guessMime (localPathOf bd src)).getD "application/octet-stream" ++
                  (";base64," ++ String.mk (b64encodeList bytes)), ?_⟩
                rw [processImg_success fs bd img src bytes hs hne hdata2 hhttp2 hhttps2
                  hex hread]
                dsimp only
                rw [dataFullStep_set_src]
                simp [dataUriOf_shape]
            · have hex2 : fs.pathExists (localPathOf bd src) = false := by simpa using hex
              rw [processImg_missing fs bd img src hs hne hdata2 hhttp2 hhttps2 hex2] at h
              simp at h

theorem processImg_counters_ignore_dataFull (fs : FS) (bd : String)
    (s d d2 : Option String) :
    (processImg fs bd ⟨s, d⟩).2.1 = (processImg fs bd ⟨s, d2⟩).2.1 ∧
      (processImg fs bd ⟨s, d⟩).2.2.1 = (processImg fs bd ⟨s, d2⟩).2.2.1 := by
  unfold processImg
  dsimp only
  split_ifs <;> try simp
  split <;> simp

theorem processImg_untouched (fs : FS) (bd : String) (img : Img)
    (h : img.src.getD "" = "" ∨ strStarts "data:" (img.src.getD "") = true ∨
      strStarts "http://" (img.src.getD "") = true ∨
      strStarts "https://" (img.src.getD "") = true ∨
      fs.pathExists (localPathOf bd (img.src.getD "")) = false) :
    (processImg fs bd img).1 = img := by
  by_cases h1 : img.src.getD "" = ""
  · rw [processImg_skip fs bd img (Or.inl h1)]
  · by_cases h2 : strStarts "data:" (img.src.getD "") = true
    · rw [processImg_skip fs bd img (Or.inr h2)]
    · by_cases h3 : strStarts "http://" (img.src.getD "") = true
      · rw [processImg_remote fs bd img (Or.inl h3)]
      · by_cases h4 : strStarts "https://" (img.src.getD "") = true
        · rw [processImg_remote fs bd img (Or.inr h4)]
        · have hex : fs.pathExists (localPathOf bd (img.src.getD "")) = false := by
            rcases h with h | h | h | h | h <;> first | exact h | simp_all
          have hsome : img.src = some (img.src.getD "") := by
            cases hsx : img.src with
            | none => simp [hsx] at h1
            | some s => simp
          rw [processImg_missing fs bd img (img.src.getD "") hsome h1
            (by simpa using h2) (by simpa using h3) (by simpa using h4) hex]

theorem processImg_dataFull_attempted (fs : FS) (bd : String) (img : Img) (src : String)
    (hsrc : img.src = some src) (hne : src ≠ "") (hd : strStarts "data:" src = false)
    (h1 : strStarts "http://" src = false) (h2 : strStarts "https://" src = false)
    (hex : fs.pathExists (localPathOf bd src) = true) :
    (processImg fs bd img).1.dataFull = (dataFullStep fs bd img).1.dataFull := by
  rcases hread : fs.readBytes (localPathOf bd src) with _ | bytes
  · rw [processImg_readfail fs bd img src hsrc hne hd h1 h2 hex hread]
  · rw [processImg_success fs bd img src bytes hsrc hne hd h1 h2 hex hread]
    dsimp only
    rw [dataFullStep_set_src]

/-! ### Claim theorems -/

/-- Claim C1, counterexample: an `img` with no `src` attribute but an
eligible, resolvable `data-full` attribute.  The loop body `continue`s at
line 50 before ever reaching the `data-full` sub-step, so `data-full` is
left untouched and no counter moves — even though the sub-step, had it
run, would have inlined it (second conjunct). -/
theorem dataFull_skipped_when_src_absent :
    processImg fsSite "/site" ⟨none, some "pic.png"⟩ =
      (⟨none, some "pic.png"⟩, 0, 0, []) ∧
    dataFullStep fsSite "/site" ⟨none, some "pic.png"⟩ =
      (⟨none, some "data:image/png;base64,AQID"⟩, []) := by
  decide

/-- Claim C1, amended: the `data-full` sub-step never influences the
`changed`/`skipped` counters, but it is only performed when the `src`
handling reaches the inlining attempt of lines 60-65 (`src` present,
non-empty, not `data:`, not remote, resolved path exists); whenever the
`src` handling `continue`s earlier, the whole element — `data-full`
included — is left untouched. -/
theorem dataFull_never_counts_and_runs_only_after_attempt
    (fs : FS) (bd : String) (img : Img) :
    ((processImg fs bd img).2.1 = (processImg fs bd { img with dataFull := none }).2.1 ∧
      (processImg fs bd img).2.2.1 =
        (processImg fs bd { img with dataFull := none }).2.2.1) ∧
    ((img.src.getD "" = "" ∨ strStarts "data:" (img.src.getD "") = true ∨
        strStarts "http://" (img.src.getD "") = true ∨
        strStarts "https://" (img.src.getD "") = true ∨
        fs.pathExists (localPathOf bd (img.src.getD "")) = false) →
      (processImg fs bd img).1.dataFull = img.dataFull) ∧
    ((img.src.getD "" ≠ "" ∧ strStarts "data:" (img.src.getD "") = false ∧
        strStarts "http://" (img.src.getD "") = false ∧
        strStarts "https://" (img.src.getD "") = false ∧
        fs.pathExists (localPathOf bd (img.src.getD "")) = true) →
      (processImg fs bd img).1.dataFull = (dataFullStep fs bd img).1.dataFull) := by
  refine ⟨?_, ?_, ?_⟩
  · cases img with
    | mk s d => exact processImg_counters_ignore_dataFull fs bd s d none
  · intro h
    rw [processImg_untouched fs bd img h]
  · rintro ⟨hne, hd, h1, h2, hex⟩
    have hsome : img.src = some (img.src.getD "") := by
      cases hsx : img.src with
      | none => simp [hsx] at hne
      | some s => simp
    exact processImg_dataFull_attempted fs bd img (img.src.getD "") hsome hne hd h1 h2 hex

/-- Witness for the amended C1 at concrete inputs: with both attributes
resolvable the `data-full` sub-step runs (first conjunct); with `src`
absent it does not (second conjunct). -/
theorem dataFull_conditional_witness :
    (processImg fsSite "/site" ⟨some "pic.png", some "pic.png"⟩).1.dataFull =
      (dataFullStep fsSite "/site" ⟨some "pic.png", some "pic.png"⟩).1.dataFull ∧
    (processImg fsSite "/site" ⟨none, some "pic.png"⟩).1.dataFull = some "pic.png" :=
  ⟨(dataFull_never_counts_and_runs_only_after_attempt fsSite "/site"
      ⟨some "pic.png", some "pic.png"⟩).2.2
      ⟨by decide, by decide, by decide, by decide, by decide⟩,
    (dataFull_never_counts_and_runs_only_after_attempt fsSite "/site"
      ⟨none, some "pic.png"⟩).2.1 (Or.inl (by decide))⟩

/-- Claim C2: when an `img` element's `src` resolves (via
`normpath(join(baseDir, src))`) to an existing file and the read succeeds,
the new `src` is exactly `data:<mime>;base64,<b64>` with `<mime>` guessed
from the file name (fallback `application/octet-stream`) and `<b64>` the
base64 encoding of the file's raw bytes; the element contributes 1 to
`changed` and 0 to `skipped`, and base64-decoding the payload gives back
exactly the original bytes. -/
theorem src_inlined_to_data_uri (fs : FS) (bd : String) (img : Img) (src : String)
    (bytes : List Nat)
    (hsrc : img.src = some src) (hne : src ≠ "")
    (hd : strStarts "data:" src = false)
    (h1 : strStarts "http://" src = false) (h2 : strStarts "https://" src = false)
    (hex : fs.pathExists (localPathOf bd src) = true)
    (hread : fs.readBytes (localPathOf bd src) = some bytes)
    (hbytes : ∀ x ∈ bytes, x < 256) :
    (processImg fs bd img).1.src =
      some ("data:" ++ (guessMime (localPathOf bd src)).getD "application/octet-stream" ++
        ";base64," ++ String.mk (b64encodeList bytes)) ∧
    (processImg fs bd img).2.1 = 1 ∧ (processImg fs bd img).2.2.1 = 0 ∧
    b64decodeList (b64encodeList bytes) = bytes := by
  rw [processImg_success fs bd img src bytes hsrc hne hd h1 h2 hex hread]
  refine ⟨?_, rfl, rfl, b64_roundtrip bytes hbytes⟩
  dsimp only
  rw [dataFullStep_set_src]
  simp [dataUriOf]

/-- Witness for C2: `/site/pic.png` with bytes 1, 2, 3 becomes
`data:image/png;base64,AQID`. -/
theorem src_inlined_to_data_uri_witness :
    fsSite.pathExists (localPathOf "/site" "pic.png") = true ∧
    fsSite.readBytes (localPathOf "/site" "pic.png") = some [1, 2, 3] ∧
    ((processImg fsSite "/site" ⟨some "pic.png", none⟩).1.src =
        some ("data:" ++
          (guessMime (localPathOf "/site" "pic.png")).getD "application/octet-stream" ++
          ";base64," ++ String.mk (b64encodeList [1, 2, 3])) ∧
      (processImg fsSite "/site" ⟨some "pic.png", none⟩).2.1 = 1 ∧
      (processImg fsSite "/site" ⟨some "pic.png", none⟩).2.2.1 = 0 ∧
      b64decodeList (b64encodeList [1, 2, 3]) = [1, 2, 3]) :=
  ⟨by decide, by decide,
    src_inlined_to_data_uri fsSite "/site" ⟨some "pic.png", none⟩ "pic.png" [1, 2, 3]
      rfl (by decide) (by decide) (by decide) (by decide) (by decide) (by decide)
      (by decide)⟩

/-- Claim C3: an `img` whose `src` starts with `http://` or `https://` is
left byte-identical (the whole element is unchanged), contributes exactly 1
to `skipped`, 0 to `changed`, and prints nothing. -/
theorem remote_src_skipped (fs : FS) (bd : String) (img : Img)
    (h : strStarts "http://" (img.src.getD "") = true ∨
      strStarts "https://" (img.src.getD "") = true) :
    processImg fs bd img = (img, 0, 1, []) :=
  processImg_remote fs bd img h

/-- Witness for C3 on `https://example.com/x.png`. -/
theorem remote_src_skipped_witness :
    strStarts "https://" ((Img.mk (some "https://example.com/x.png") none).src.getD "") =
      true ∧
    processImg fsNone "/site" ⟨some "https://example.com/x.png", none⟩ =
      (⟨some "https://example.com/x.png", none⟩, 0, 1, []) :=
  ⟨by decide,
    remote_src_skipped fsNone "/site" ⟨some "https://example.com/x.png", none⟩
      (Or.inr (by decide))⟩

/-- Claim C4: an `img` whose `src` is a local reference to a non-existent
resolved path is left unchanged, contributes exactly 1 to `skipped` and 0 to
`changed`, and prints one warning whose text contains the resolved path
(suffix conjunct); the pass over the remaining elements continues. -/
theorem missing_file_skipped (fs : FS) (bd : String) (img : Img) (src : String)
    (rest : List Img)
    (hsrc : img.src = some src) (hne : src ≠ "")
    (hd : strStarts "data:" src = false)
    (h1 : strStarts "http://" src = false) (h2 : strStarts "https://" src = false)
    (hex : fs.pathExists (localPathOf bd src) = false) :
    processImg fs bd img = (img, 0, 1, [warnNotFound src (localPathOf bd src)]) ∧
    (localPathOf bd src).data <:+ (warnNotFound src (localPathOf bd src)).data ∧
    processAll fs bd (img :: rest) =
      (img :: (processAll fs bd rest).1,
        (processAll fs bd rest).2.1,
        1 + (processAll fs bd rest).2.2.1,
        warnNotFound src (localPathOf bd src) :: (processAll fs bd rest).2.2.2) := by
  have hp := processImg_missing fs bd img src hsrc hne hd h1 h2 hex
  refine ⟨hp, ?_, ?_⟩
  · unfold warnNotFound
    rw [String.data_append]
    exact List.suffix_append _ _
  · simp [processAll, hp]

/-- Witness for C4: `missing.png` under `/site` with an empty filesystem. -/
theorem missing_file_skipped_witness :
    fsNone.pathExists (localPathOf "/site" "missing.png") = false ∧
    (processImg fsNone "/site" ⟨some "missing.png", none⟩ =
        (⟨some "missing.png", none⟩, 0, 1,
          [warnNotFound "missing.png" (localPathOf "/site" "missing.png")]) ∧
      (localPathOf "/site" "missing.png").data <:+
        (warnNotFound "missing.png" (localPathOf "/site" "missing.png")).data ∧
      processAll fsNone "/site" [⟨some "missing.png", none⟩] =
        ([⟨some "missing.png", none⟩],
          (processAll fsNone "/site" []).2.1,
          1 + (processAll fsNone "/site" []).2.2.1,
          warnNotFound "missing.png" (localPathOf "/site" "missing.png") ::
            (processAll fsNone "/site" []).2.2.2)) := by
  refine ⟨by decide, ?_⟩
  have h := missing_file_skipped fsNone "/site" ⟨some "missing.png", none⟩ "missing.png" []
    rfl (by decide) (by decide) (by decide) (by decide) (by decide)
  simpa using h

/-- Claim C5: an `img` whose `src` is absent, empty, or already a `data:`
URI is skipped entirely: no counter moves, no warning is printed, and the
element (its `src` included) is unchanged. -/
theorem excluded_src_untouched (fs : FS) (bd : String) (img : Img)
    (h : img.src = none ∨ img.src = some "" ∨
      ∃ s, img.src = some s ∧ strStarts "data:" s = true) :
    processImg fs bd img = (img, 0, 0, []) := by
  apply processImg_skip
  rcases h with h | h | ⟨s, hs, hd⟩
  · exact Or.inl (by simp [h])
  · exact Or.inl (by simp [h])
  · exact Or.inr (by simpa [hs] using hd)

/-- Witness for C5 on an `img` with no `src` attribute. -/
theorem excluded_src_untouched_witness :
    (Img.mk none none).src = none ∧
    processImg fsSite "/site" ⟨none, none⟩ = (⟨none, none⟩, 0, 0, []) :=
  ⟨rfl, excluded_src_untouched fsSite "/site" ⟨none, none⟩ (Or.inl rfl)⟩

/-- Claim C6: when the resolved file passes the existence check but the
read/encode raises, the exception is caught: one warning is printed,
`skipped` gets exactly 1 and `changed` 0, the element's `src` keeps its
original value, and the pass continues with the remaining elements. -/
theorem read_failure_recovered (fs : FS) (bd : String) (img : Img) (src : String)
    (rest : List Img)
    (hsrc : img.src = some src) (hne : src ≠ "")
    (hd : strStarts "data:" src = false)
    (h1 : strStarts "http://" src = false) (h2 : strStarts "https://" src = false)
    (hex : fs.pathExists (localPathOf bd src) = true)
    (hread : fs.readBytes (localPathOf bd src) = none) :
    processImg fs bd img =
      ((dataFullStep fs bd img).1, 0, 1,
        warnInlineFail (localPathOf bd src) :: (dataFullStep fs bd img).2) ∧
    (processImg fs bd img).1.src = img.src ∧
    processAll fs bd (img :: rest) =
      ((dataFullStep fs bd img).1 :: (processAll fs bd rest).1,
        (processAll fs bd rest).2.1,
        1 + (processAll fs bd rest).2.2.1,
        (warnInlineFail (localPathOf bd src) :: (dataFullStep fs bd img).2) ++
          (processAll fs bd rest).2.2.2) := by
  have hp := processImg_readfail fs bd img src hsrc hne hd h1 h2 hex hread
  refine ⟨hp, ?_, ?_⟩
  · rw [hp]
    exact dataFullStep_src fs bd img
  · simp [processAll, hp]

/-- Witness for C6: `/site/pic.png` exists but every read raises. -/
theorem read_failure_recovered_witness :
    fsBroken.pathExists (localPathOf "/site" "pic.png") = true ∧
    fsBroken.readBytes (localPathOf "/site" "pic.png") = none ∧
    (processImg fsBroken "/site" ⟨some "pic.png", none⟩ =
        ((dataFullStep fsBroken "/site" ⟨some "pic.png", none⟩).1, 0, 1,
          warnInlineFail (localPathOf "/site" "pic.png") ::
            (dataFullStep fsBroken "/site" ⟨some "pic.png", none⟩).2) ∧
      (processImg fsBroken "/site" ⟨some "pic.png", none⟩).1.src = some "pic.png" ∧
      processAll fsBroken "/site" [⟨some "pic.png", none⟩] =
        ((dataFullStep fsBroken "/site" ⟨some "pic.png", none⟩).1 ::
            (processAll fsBroken "/site" []).1,
          (processAll fsBroken "/site" []).2.1,
          1 + (processAll fsBroken "/site" []).2.2.1,
          (warnInlineFail (localPathOf "/site" "pic.png") ::
              (dataFullStep fsBroken "/site" ⟨some "pic.png", none⟩).2) ++
            (processAll fsBroken "/site" []).2.2.2)) := by
  refine ⟨by decide, by decide, ?_⟩
  exact read_failure_recovered fsBroken "/site" ⟨some "pic.png", none⟩ "pic.png" []
    rfl (by decide) (by decide) (by decide) (by decide) (by decide) (by decide)

/-- Claim C7: `run` fails early on bad invocation.  With fewer than 2
positional arguments (fewer than 3 entries of `sys.argv`) it prints the
usage line to standard output and exits with code 1; with a non-existent
input path it prints an error line containing the path (suffix conjunct)
and exits with code 2; in both cases no output file is written. -/
theorem run_fails_early (fs : FS) (parse : String → List Img)
    (absDirOf : String → String) (argv : List String) :
    (argv.length < 3 →
      run fs parse absDirOf argv =
        { exitCode := 1, stdout := [usageMsg], written := none }) ∧
    (3 ≤ argv.length → fs.pathExists (argv.getD 1 "") = false →
      run fs parse absDirOf argv =
        { exitCode := 2, stdout := ["Error: input not found: " ++ argv.getD 1 ""],
          written := none } ∧
      (argv.getD 1 "").data <:+ ("Error: input not found: " ++ argv.getD 1 "").data) := by
  constructor
  · intro h
    unfold run
    rw [if_pos h]
  · intro h3 hnex
    refine ⟨?_, ?_⟩
    · unfold run
      rw [if_neg (by omega)]
      dsimp only
      have hnex2 : fs.pathExists (argv[1]?.getD "") = false := by
        simpa [List.getD_eq_getElem?_getD] using hnex
      rw [if_pos (by simp [hnex2])]
    · rw [String.data_append]
      exact List.suffix_append _ _

/-- Witness for C7: one invocation with a single argument, one with a
missing input file. -/
theorem run_fails_early_witness :
    (["prog"].length < 3 ∧
      run fsNone (fun _ => ([] : List Img)) (fun _ => "/") ["prog"] =
        { exitCode := 1, stdout := [usageMsg], written := none }) ∧
    (3 ≤ ["prog", "ghost.html", "out.html"].length ∧
      fsNone.pathExists "ghost.html" = false ∧
      run fsNone (fun _ => ([] : List Img)) (fun _ => "/")
          ["prog", "ghost.html", "out.html"] =
        { exitCode := 2, stdout := ["Error: input not found: " ++ "ghost.html"],
          written := none }) :=
  ⟨⟨by decide,
      (run_fails_early fsNone (fun _ => ([] : List Img)) (fun _ => "/") ["prog"]).1
        (by decide)⟩,
    ⟨by decide, by decide,
      ((run_fails_early fsNone (fun _ => ([] : List Img)) (fun _ => "/")
          ["prog", "ghost.html", "out.html"]).2 (by decide) (by decide)).1⟩⟩

/-- Claim C8 (idempotence): if an element's `src` was inlined by a first
run (it contributed 1 to `changed`), a second run — over any filesystem and
base directory — leaves that element completely unchanged and contributes
0 to `changed` (and 0 to `skipped`), because the new `src` starts with
`data:`. -/
theorem second_run_is_identity (fs fs2 : FS) (bd bd2 : String) (img : Img)
    (h : (processImg fs bd img).2.1 = 1) :
    processImg fs2 bd2 ((processImg fs bd img).1) =
      ((processImg fs bd img).1, 0, 0, []) := by
  obtain ⟨t, hsrc⟩ := processImg_changed_src fs bd img h
  apply processImg_skip
  right
  rw [hsrc]
  simpa using strStarts_append_self "data:" t

/-- Witness for C8: re-processing the inlined `/site/pic.png` element. -/
theorem second_run_is_identity_witness :
    (processImg fsSite "/site" ⟨some "pic.png", none⟩).2.1 = 1 ∧
    processImg fsSite "/site" ((processImg fsSite "/site" ⟨some "pic.png", none⟩).1) =
      ((processImg fsSite "/site" ⟨some "pic.png", none⟩).1, 0, 0, []) :=
  ⟨by decide,
    second_run_is_identity fsSite fsSite "/site" "/site" ⟨some "pic.png", none⟩
      (by decide)⟩

/-- Claim C9 (implicit): the remote/data exclusions are exact
case-sensitive prefix checks, so an uppercase scheme (`HTTP://host/x`) or a
protocol-relative reference (`//host/x`) is treated as a candidate local
path and resolved against the base directory instead of being counted as a
remote skip: when the resolved path exists the element is inlined
(`changed` = 1, `skipped` = 0), and when it does not, the element is
skipped with the file-not-found warning naming the resolved path — never
the silent remote skip.  The same exact-prefix treatment applies to a
`data-full` value (last conjunct). -/
theorem uppercase_scheme_treated_as_local :
    processImg fsOdd "/site" ⟨some "HTTP://host/x", none⟩ =
      (⟨some "data:application/octet-stream;base64,Bw==", none⟩, 1, 0, []) ∧
    processImg fsOdd "/site" ⟨some "//host/x", none⟩ =
      (⟨some "data:application/octet-stream;base64,CQ==", none⟩, 1, 0, []) ∧
    processImg fsNone "/site" ⟨some "HTTP://host/x", none⟩ =
      (⟨some "HTTP://host/x", none⟩, 0, 1,
        [warnNotFound "HTTP://host/x" "/site/HTTP:/host/x"]) ∧
    processImg fsOdd "/site" ⟨some "a.png", some "HTTP://host/x"⟩ =
      (⟨some "data:image/png;base64,AQ==",
          some "data:application/octet-stream;base64,Bw=="⟩, 1, 0, []) := by
  decide

/-- Claim C10 (invariant): each element contributes exactly one of
(0, 0), (1, 0) or (0, 1) to (`changed`, `skipped`), so over any document
`changed + skipped` is at most the number of `img` elements, and both
counters are non-negative. -/
theorem counters_bounded_by_images (fs : FS) (bd : String) (imgs : List Img) :
    (∀ img : Img,
      ((processImg fs bd img).2.1, (processImg fs bd img).2.2.1) = (0, 0) ∨
        ((processImg fs bd img).2.1, (processImg fs bd img).2.2.1) = (1, 0) ∨
        ((processImg fs bd img).2.1, (processImg fs bd img).2.2.1) = (0, 1)) ∧
    (processAll fs bd imgs).2.1 + (processAll fs bd imgs).2.2.1 ≤ imgs.length ∧
    0 ≤ (processAll fs bd imgs).2.1 ∧ 0 ≤ (processAll fs bd imgs).2.2.1 := by
  refine ⟨processImg_counter_cases fs bd, ?_, Nat.zero_le _, Nat.zero_le _⟩
  induction imgs with
  | nil => simp [processAll]
  | cons img rest ih =>
    have hc := processImg_counter_cases fs bd img
    rw [Prod.mk.injEq, Prod.mk.injEq, Prod.mk.injEq] at hc
    simp only [processAll, List.length_cons]
    rcases hc with ⟨ha, hb⟩ | ⟨ha, hb⟩ | ⟨ha, hb⟩ <;> omega
